import Mathlib

/-!
Verification of the symbolic-geometry and compilation layer of
`semantic_world` (file `spatial_types.py`).

The casadi scalar expression type `SX` is shallowly embedded as an
inductive expression tree over rational constants, evaluated by direct
substitution of an environment mapping symbol names to numbers.
Conditionals (`ca.if_else`) select the first branch when the condition is
nonzero, matching casadi semantics.  Matrices (`Expression`) are lists of
columns (casadi stores matrices column-major, and the compiled dense
output buffer uses Fortran order).
-/

/-- Scalar symbolic expression, mirroring the casadi `SX` scalars the
code builds: constants, named symbols, arithmetic, comparisons (which
evaluate to 1 or 0) and the branch-free ternary `ca.if_else`. -/
inductive SX where
  | const (c : ℚ)
  | sym (name : String)
  | add (a b : SX)
  | sub (a b : SX)
  | mul (a b : SX)
  | div (a b : SX)
  | neg (a : SX)
  | pow (a b : SX)
  | ltOp (a b : SX)
  | leOp (a b : SX)
  | eqOp (a b : SX)
  | ifElse (c a b : SX)
deriving DecidableEq

/-- Power with a rational exponent, modelled on the integer-exponent
fragment (the only fragment with an exact rational value). -/
def qpow (a b : ℚ) : ℚ := if b.den = 1 then a ^ b.num else 0

/-- Direct numeric substitution into a scalar symbolic expression. -/
def SX.eval (env : String → ℚ) : SX → ℚ
  | .const c => c
  | .sym n => env n
  | .add a b => a.eval env + b.eval env
  | .sub a b => a.eval env - b.eval env
  | .mul a b => a.eval env * b.eval env
  | .div a b => a.eval env / b.eval env
  | .neg a => -(a.eval env)
  | .pow a b => qpow (a.eval env) (b.eval env)
  | .ltOp a b => if a.eval env < b.eval env then 1 else 0
  | .leOp a b => if a.eval env ≤ b.eval env then 1 else 0
  | .eqOp a b => if a.eval env = b.eval env then 1 else 0
  | .ifElse c a b => if c.eval env ≠ 0 then a.eval env else b.eval env

/-- Names of the free symbols occurring in an expression. -/
def SX.freeSyms : SX → List String
  | .const _ => []
  | .sym n => [n]
  | .add a b => a.freeSyms ++ b.freeSyms
  | .sub a b => a.freeSyms ++ b.freeSyms
  | .mul a b => a.freeSyms ++ b.freeSyms
  | .div a b => a.freeSyms ++ b.freeSyms
  | .neg a => a.freeSyms
  | .pow a b => a.freeSyms ++ b.freeSyms
  | .ltOp a b => a.freeSyms ++ b.freeSyms
  | .leOp a b => a.freeSyms ++ b.freeSyms
  | .eqOp a b => a.freeSyms ++ b.freeSyms
  | .ifElse c a b => c.freeSyms ++ (a.freeSyms ++ b.freeSyms)

theorem SX.eval_congr (e : SX) (env1 env2 : String → ℚ)
    (h : ∀ s ∈ e.freeSyms, env1 s = env2 s) : e.eval env1 = e.eval env2 := by
  induction e with
  | const c => rfl
  | sym n => exact h n (by simp [SX.freeSyms])
  | add a b iha ihb =>
      simp only [SX.eval, SX.freeSyms] at *
      rw [iha (fun s hs => h s (by simp [hs])), ihb (fun s hs => h s (by simp [hs]))]
  | sub a b iha ihb =>
      simp only [SX.eval, SX.freeSyms] at *
      rw [iha (fun s hs => h s (by simp [hs])), ihb (fun s hs => h s (by simp [hs]))]
  | mul a b iha ihb =>
      simp only [SX.eval, SX.freeSyms] at *
      rw [iha (fun s hs => h s (by simp [hs])), ihb (fun s hs => h s (by simp [hs]))]
  | div a b iha ihb =>
      simp only [SX.eval, SX.freeSyms] at *
      rw [iha (fun s hs => h s (by simp [hs])), ihb (fun s hs => h s (by simp [hs]))]
  | neg a iha =>
      simp only [SX.eval, SX.freeSyms] at *
      rw [iha h]
  | pow a b iha ihb =>
      simp only [SX.eval, SX.freeSyms] at *
      rw [iha (fun s hs => h s (by simp [hs])), ihb (fun s hs => h s (by simp [hs]))]
  | ltOp a b iha ihb =>
      simp only [SX.eval, SX.freeSyms] at *
      rw [iha (fun s hs => h s (by simp [hs])), ihb (fun s hs => h s (by simp [hs]))]
  | leOp a b iha ihb =>
      simp only [SX.eval, SX.freeSyms] at *
      rw [iha (fun s hs => h s (by simp [hs])), ihb (fun s hs => h s (by simp [hs]))]
  | eqOp a b iha ihb =>
      simp only [SX.eval, SX.freeSyms] at *
      rw [iha (fun s hs => h s (by simp [hs])), ihb (fun s hs => h s (by simp [hs]))]
  | ifElse c a b ihc iha ihb =>
      simp only [SX.eval, SX.freeSyms] at *
      rw [ihc (fun s hs => h s (by simp [hs])), iha (fun s hs => h s (by simp [hs])),
        ihb (fun s hs => h s (by simp [hs]))]

/-! ## Multi-way dispatch helpers (`if_eq_cases`) -/

/-- Translation of `if_eq_cases`: starting from the default, each
`(key, result)` pair wraps the accumulated expression in a ternary
`if_else(eq(a, key), result, acc)`, processing the case list front to
back, so the last pair ends up as the outermost test. -/
def if_eq_cases (a : SX) (b_result_cases : List (SX × SX)) (else_result : SX) : SX :=
  b_result_cases.foldl (fun result bc => SX.ifElse (SX.eqOp a bc.1) bc.2 result) else_result

/-- Reference semantics written in the docstring of `if_eq_cases` (and in the
test suite's reference implementation): return the result of the first pair
whose key equals the scrutinee, else the default. -/
def firstMatch (a : ℚ) (cases : List (ℚ × ℚ)) (els : ℚ) : ℚ :=
  match cases with
  | [] => els
  | (b, r) :: rest => if a = b then r else firstMatch a rest els

/-- C7: with the duplicate-key case list [(0, 1), (0, 2)] and scrutinee 0 the
expression built by `if_eq_cases` evaluates to 2 (the LAST matching pair),
while the docstring's if/elif reference semantics gives 1 (the first
matching pair). -/
theorem if_eq_cases_duplicate_key :
    SX.eval (fun _ => 0)
      (if_eq_cases (SX.const 0)
        [(SX.const 0, SX.const 1), (SX.const 0, SX.const 2)] (SX.const 3)) = 2
    ∧ firstMatch 0 [(0, 1), (0, 2)] 3 = 1 := by
  constructor
  · decide
  · decide

/-! ## Three-valued logic -/

def TrinaryFalse : ℚ := 0

def TrinaryUnknown : ℚ := 1/2

def TrinaryTrue : ℚ := 1

/-- Value of `is_true_symbol` on a numeric constant: the symbolic comparison
with `BinaryTrue` (= 1) evaluates to a nonzero number exactly for 1. -/
def is_true_symbol (x : ℚ) : Bool := decide (x = 1)

/-- Value of `is_false_symbol` on a numeric constant: comparison with
`BinaryFalse` (= 0). -/
def is_false_symbol (x : ℚ) : Bool := decide (x = 0)

/-- Translation of `logic_and3` at two arguments: any false argument returns
`TrinaryFalse`; true arguments are filtered out, returning `TrinaryTrue` if
nothing remains, the lone survivor if one remains, and `min` of both
otherwise. -/
def logic_and3 (a b : ℚ) : ℚ :=
  if is_false_symbol a || is_false_symbol b then TrinaryFalse
  else if is_true_symbol a && is_true_symbol b then TrinaryTrue
  else if is_true_symbol a then b
  else if is_true_symbol b then a
  else min a b

/-- Translation of `logic_or3`: `max` of the two arguments. -/
def logic_or3 (a b : ℚ) : ℚ := max a b

/-- Translation of `logic_not3`: `1 - x`. -/
def logic_not3 (x : ℚ) : ℚ := 1 - x

/-- C8: on the trinary constants {0, 1/2, 1} the three-valued connectives
behave as min, max and 1 - x, and in particular and3(True, Unknown) =
Unknown and or3(False, Unknown) = Unknown. -/
theorem trinary_logic_min_max (x y : ℚ)
    (hx : x = TrinaryFalse ∨ x = TrinaryUnknown ∨ x = TrinaryTrue)
    (hy : y = TrinaryFalse ∨ y = TrinaryUnknown ∨ y = TrinaryTrue) :
    logic_and3 x y = min x y ∧ logic_or3 x y = max x y ∧ logic_not3 x = 1 - x
    ∧ logic_and3 TrinaryTrue TrinaryUnknown = TrinaryUnknown
    ∧ logic_or3 TrinaryFalse TrinaryUnknown = TrinaryUnknown := by
  rcases hx with h | h | h <;> rcases hy with h2 | h2 | h2 <;> subst h <;> subst h2 <;>
    refine ⟨?_, ?_, ?_, ?_, ?_⟩ <;>
    norm_num [logic_and3, logic_or3, logic_not3, is_true_symbol, is_false_symbol,
      TrinaryFalse, TrinaryUnknown, TrinaryTrue, min_def, max_def]

/-- Witness for `trinary_logic_min_max` at x = TrinaryTrue, y = TrinaryUnknown. -/
theorem trinary_logic_min_max_witness :
    logic_and3 TrinaryTrue TrinaryUnknown = min TrinaryTrue TrinaryUnknown
    ∧ logic_or3 TrinaryTrue TrinaryUnknown = max TrinaryTrue TrinaryUnknown
    ∧ logic_not3 TrinaryTrue = 1 - TrinaryTrue
    ∧ logic_and3 TrinaryTrue TrinaryUnknown = TrinaryUnknown
    ∧ logic_or3 TrinaryFalse TrinaryUnknown = TrinaryUnknown :=
  trinary_logic_min_max TrinaryTrue TrinaryUnknown
    (Or.inr (Or.inr rfl)) (Or.inr (Or.inl rfl))

/-! ## `if_else` branch-type rule -/

/-- Concrete Python class of an `if_else` branch argument. -/
inductive CasKind where
  | floatK
  | intK
  | symbolK
  | exprK
  | pointK
  | vectorK
  | transK
  | rotK
  | quatK
deriving DecidableEq

def CasKind.name : CasKind → String
  | .floatK => "float"
  | .intK => "int"
  | .symbolK => "Symbol"
  | .exprK => "Expression"
  | .pointK => "Point3"
  | .vectorK => "Vector3"
  | .transK => "TransformationMatrix"
  | .rotK => "RotationMatrix"
  | .quatK => "Quaternion"

/-- The `isinstance(x, (float, int))` conversion at the top of `if_else`:
scalar branch arguments are wrapped into Expression before any type check. -/
def CasKind.toExprIfScalar (k : CasKind) : CasKind :=
  if k = .floatK ∨ k = .intK then .exprK else k

/-- Membership in the frame-carrying tuple
`(Point3, Vector3, TransformationMatrix, RotationMatrix, Quaternion)`. -/
def CasKind.isFrameCarrying (k : CasKind) : Bool :=
  k = .pointK ∨ k = .vectorK ∨ k = .transK ∨ k = .rotK ∨ k = .quatK

/-- Result type of `if_else(condition, a, b)` at the level of branch-argument
classes: scalars are converted to Expression; then, only when the FIRST
branch is frame-carrying, the assertion compares the two concrete types;
the return type is the (converted) first branch's type, with Symbol
downgraded to Expression. -/
def if_else_kind (ka kb : CasKind) : Except String CasKind :=
  let ka' := ka.toExprIfScalar
  let kb' := kb.toExprIfScalar
  if ka'.isFrameCarrying ∧ ka' ≠ kb' then
    .error ("if_else: result types are not equal " ++ ka'.name ++ " != " ++ kb'.name)
  else
    .ok (if ka' = .symbolK then .exprK else ka')

/-- True when the `if_else` call raises rather than returning a result. -/
def rejects (r : Except String CasKind) : Bool :=
  match r with
  | .error _ => true
  | .ok _ => false

/-- C6 counterexample: with the first branch a (non-frame-carrying)
Expression and the second branch a frame-carrying Point3 — concrete types
differing — `if_else` does NOT raise: it returns an Expression. -/
theorem if_else_second_branch_only_not_rejected :
    CasKind.isFrameCarrying (CasKind.toExprIfScalar .pointK) = true
    ∧ CasKind.toExprIfScalar .exprK ≠ CasKind.toExprIfScalar .pointK
    ∧ if_else_kind .exprK .pointK = .ok .exprK := by
  refine ⟨by decide, by decide, rfl⟩

/-- C6 (amended): `if_else` rejects exactly when the FIRST branch argument,
after scalar-to-Expression conversion, is a frame-carrying geometric type
and the two (converted) concrete types differ; a frame-carrying second
branch alone never causes a rejection. -/
theorem if_else_frame_type_rule (ka kb : CasKind) :
    rejects (if_else_kind ka kb) = true
      ↔ (CasKind.isFrameCarrying ka.toExprIfScalar = true
          ∧ ka.toExprIfScalar ≠ kb.toExprIfScalar) := by
  cases ka <;> cases kb <;> decide

/-! ## Symbol interning registry -/

/-- The `Symbol._registry` dictionary: a map from name to the interned
instance, here identified by a numeric instance id (object identity). -/
abbrev Registry := List (String × Nat)

/-- Dictionary lookup by name. -/
def regFind : Registry → String → Option Nat
  | [], _ => none
  | (k, v) :: rest, n => if k = n then some v else regFind rest n

/-- Translation of `Symbol.__new__`: return the registered instance when the
name is present, otherwise create a fresh instance (a fresh id) and
register it under the name. -/
def Symbol_new (reg : Registry) (name : String) : Registry × Nat :=
  match regFind reg name with
  | some i => (reg, i)
  | none => (reg ++ [(name, reg.length)], reg.length)

/-- Registry sanity: every registered id is below the registry size (ids are
allocated in creation order) and distinct entries carry distinct ids, so an
id identifies one instance. -/
def Registry.WF (reg : Registry) : Prop :=
  (∀ p ∈ reg, p.2 < reg.length) ∧
  (∀ p ∈ reg, ∀ q ∈ reg, p.2 = q.2 → p = q)

theorem Registry.WF_nil : Registry.WF [] := by
  constructor <;> intro p hp <;> simp at hp

theorem regFind_some_mem {reg : Registry} {n : String} {i : Nat}
    (h : regFind reg n = some i) : (n, i) ∈ reg := by
  induction reg with
  | nil => simp [regFind] at h
  | cons p rest ih =>
      by_cases hk : p.1 = n
      · simp only [regFind] at h
        rw [if_pos hk] at h
        have hv : p.2 = i := by injection h
        have hp : p = (n, i) := by
          cases p
          simp only [Prod.mk.injEq]
          exact ⟨hk, hv⟩
        rw [← hp]
        exact List.mem_cons_self _ _
      · simp only [regFind] at h
        rw [if_neg hk] at h
        exact List.mem_cons_of_mem _ (ih h)

theorem regFind_append_left {r1 r2 : Registry} {n : String} {i : Nat}
    (h : regFind r1 n = some i) : regFind (r1 ++ r2) n = some i := by
  induction r1 with
  | nil => simp [regFind] at h
  | cons p rest ih =>
      simp only [regFind, List.cons_append] at *
      by_cases hk : p.1 = n
      · rwa [if_pos hk] at *
      · rw [if_neg hk] at *
        exact ih h

theorem regFind_append_right {r1 r2 : Registry} {n : String}
    (h : regFind r1 n = none) : regFind (r1 ++ r2) n = regFind r2 n := by
  induction r1 with
  | nil => simp [regFind]
  | cons p rest ih =>
      simp only [regFind, List.cons_append] at *
      by_cases hk : p.1 = n
      · rw [if_pos hk] at h
        cases h
      · rw [if_neg hk] at *
        exact ih h

theorem Symbol_new_WF {reg : Registry} (h : reg.WF) (name : String) :
    (Symbol_new reg name).1.WF := by
  unfold Symbol_new
  cases hf : regFind reg name with
  | some i => exact h
  | none =>
      obtain ⟨hbound, hinj⟩ := h
      constructor
      · intro p hp
        simp only [List.length_append, List.length_cons, List.length_nil]
        rcases List.mem_append.mp hp with hl | hr
        · exact Nat.lt_succ_of_lt (hbound p hl)
        · simp at hr
          subst hr
          simp
      · intro p hp q hq hpq
        rcases List.mem_append.mp hp with hl | hr <;>
          rcases List.mem_append.mp hq with hl2 | hr2
        · exact hinj p hl q hl2 hpq
        · simp at hr2
          subst hr2
          exact absurd (hpq ▸ hbound p hl) (lt_irrefl _)
        · simp at hr
          subst hr
          exact absurd (hpq ▸ hbound q hl2) (by simp)
        · simp at hr hr2
          subst hr
          subst hr2
          rfl

/-- Hash of a name string.  CPython hashes the string value; the model takes
the hash to be an injective function of the name, represented by the name
itself. -/
def pyHash (name : String) : String := name

/-- Translation of `Symbol.__eq__`: two symbols compare equal exactly when
their hashes (of their names, by `Symbol.__hash__`) are equal. -/
def Symbol_eq (n1 n2 : String) : Bool := pyHash n1 == pyHash n2

/-- C5: interning two names in sequence yields the very same instance id
exactly when the names are equal; symbol equality holds exactly when the
names are equal; and equal symbols have equal hashes. -/
theorem symbol_interning (reg : Registry) (h : reg.WF) (n1 n2 : String) :
    ((Symbol_new (Symbol_new reg n1).1 n2).2 = (Symbol_new reg n1).2 ↔ n1 = n2)
    ∧ (Symbol_eq n1 n2 = true ↔ n1 = n2)
    ∧ (Symbol_eq n1 n2 = true → pyHash n1 = pyHash n2) := by
  refine ⟨?_, ?_, ?_⟩
  · obtain ⟨hbound, hinj⟩ := h
    unfold Symbol_new
    cases hf1 : regFind reg n1 with
    | some i1 =>
        simp only
        cases hf2 : regFind reg n2 with
        | some i2 =>
            simp only
            constructor
            · intro hi
              have h1 := regFind_some_mem hf1
              have h2 := regFind_some_mem hf2
              have := hinj (n2, i2) h2 (n1, i1) h1 hi
              exact (((Prod.mk.injEq _ _ _ _).mp this).1).symm
            · intro hn
              subst hn
              rw [hf1] at hf2
              cases hf2
              rfl
        | none =>
            simp only
            constructor
            · intro hi
              exact absurd (hi ▸ hbound (n1, i1) (regFind_some_mem hf1)) (lt_irrefl _)
            · intro hn
              subst hn
              rw [hf1] at hf2
              cases hf2
    | none =>
        simp only
        by_cases hn : n1 = n2
        · subst hn
          have : regFind (reg ++ [(n1, reg.length)]) n1 = some reg.length := by
            rw [regFind_append_right hf1]
            simp [regFind]
          rw [this]
          simp
        · constructor
          · intro hi
            cases hf2 : regFind reg n2 with
            | some i2 =>
                rw [regFind_append_left hf2] at hi
                have hi' : i2 = reg.length := hi
                exact absurd (hi' ▸ hbound (n2, i2) (regFind_some_mem hf2)) (lt_irrefl _)
            | none =>
                have hnone : regFind (reg ++ [(n1, reg.length)]) n2 = none := by
                  rw [regFind_append_right hf2]
                  simp only [regFind]
                  rw [if_neg hn]
                rw [hnone] at hi
                simp at hi
          · intro hn2
            exact absurd hn2 hn
  · simp [Symbol_eq, pyHash]
  · simp [Symbol_eq, pyHash]

/-- Witness for `symbol_interning` on the empty registry with names "a", "b". -/
theorem symbol_interning_witness :
    ((Symbol_new (Symbol_new [] ("a")).1 ("b")).2 = (Symbol_new [] ("a")).2 ↔ ("a" : String) = "b")
    ∧ (Symbol_eq ("a") ("b") = true ↔ ("a" : String) = "b")
    ∧ (Symbol_eq ("a") ("b") = true → pyHash ("a") = pyHash ("b")) :=
  symbol_interning [] Registry.WF_nil ("a") ("b")

/-! ## Point3 / Vector3 homogeneous columns and operator dispatch -/

/-- A 4x1 column of scalar expressions (the `ca.SX(4, 1)` data backing a
Point3, Vector3 or Quaternion). -/
structure Vec4 where
  e0 : SX
  e1 : SX
  e2 : SX
  e3 : SX
deriving DecidableEq

/-- Elementwise combination of two 4x1 columns. -/
def Vec4.zipWith (f : SX → SX → SX) (a b : Vec4) : Vec4 :=
  ⟨f a.e0 b.e0, f a.e1 b.e1, f a.e2 b.e2, f a.e3 b.e3⟩

/-- Broadcast combination with a scalar on the right. -/
def Vec4.mapR (f : SX → SX → SX) (a : Vec4) (c : SX) : Vec4 :=
  ⟨f a.e0 c, f a.e1 c, f a.e2 c, f a.e3 c⟩

/-- Broadcast combination with a scalar on the left. -/
def Vec4.mapL (f : SX → SX → SX) (c : SX) (a : Vec4) : Vec4 :=
  ⟨f c a.e0, f c a.e1, f c a.e2, f c a.e3⟩

/-- Elementwise unary map. -/
def Vec4.mapU (f : SX → SX) (a : Vec4) : Vec4 := ⟨f a.e0, f a.e1, f a.e2, f a.e3⟩

/-- Translation of `Point3.__init__` on 4x1 symbolic data: the backing column
starts as [0, 0, 0, 1] and only the first three entries are overwritten
from the data, so the homogeneous entry is re-derived as the constant 1
(the data's own fourth entry is discarded). -/
def Point3_init (v : Vec4) : Vec4 := ⟨v.e0, v.e1, v.e2, SX.const 1⟩

/-- Translation of `Vector3.__init__` on 4x1 symbolic data: builds the Point3
column and then overwrites the homogeneous entry with 0. -/
def Vector3_init (v : Vec4) : Vec4 := ⟨v.e0, v.e1, v.e2, SX.const 0⟩

/-- Translation of `Point3.__init__` on a triple of coordinates. -/
def Point3_from_xyz (x y z : SX) : Vec4 := ⟨x, y, z, SX.const 1⟩

/-- Translation of `Vector3.__init__` on a triple of coordinates. -/
def Vector3_from_xyz (x y z : SX) : Vec4 := ⟨x, y, z, SX.const 0⟩

/-- Binary operators covered by the dispatch table. -/
inductive BinOp where
  | addO
  | subO
  | mulO
  | divO
  | powO
deriving DecidableEq

def BinOp.toSX : BinOp → SX → SX → SX
  | .addO => SX.add
  | .subO => SX.sub
  | .mulO => SX.mul
  | .divO => SX.div
  | .powO => SX.pow

def BinOp.opStr : BinOp → String
  | .addO => "+"
  | .subO => "-"
  | .mulO => "*"
  | .divO => "/"
  | .powO => "**"

/-- A Python value taking part in the scalar / Symbol / Expression / Point3 /
Vector3 operator dispatch.  An Expression operand is either a 1x1 scalar
(broadcast by casadi) or a 4x1 column. -/
inductive PyVal where
  | scalar (c : ℚ)
  | symbolV (n : String)
  | expr1 (e : SX)
  | expr4 (v : Vec4)
  | point (v : Vec4)
  | vector (v : Vec4)
deriving DecidableEq

def PyVal.clsName : PyVal → String
  | .scalar _ => "float"
  | .symbolV _ => "Symbol"
  | .expr1 _ => "Expression"
  | .expr4 _ => "Expression"
  | .point _ => "Point3"
  | .vector _ => "Vector3"

/-- Translation of `_operation_type_error`. -/
def typeErr (a : PyVal) (op : BinOp) (b : PyVal) : String :=
  "unsupported operand type(s) for " ++ op.opStr ++ ": '" ++ a.clsName
    ++ "' and '" ++ b.clsName ++ "'"

/-- The casadi-level combination `self.s OP other.s` of a 4x1 column with an
operand (scalars and 1x1 matrices broadcast, 4x1 columns combine
elementwise). -/
def combinePV (f : SX → SX → SX) (v : Vec4) : PyVal → Vec4
  | .scalar c => Vec4.mapR f v (SX.const c)
  | .symbolV n => Vec4.mapR f v (SX.sym n)
  | .expr1 e => Vec4.mapR f v e
  | .expr4 w => Vec4.zipWith f v w
  | .point w => Vec4.zipWith f v w
  | .vector w => Vec4.zipWith f v w

/-- Translation of `Point3.__add__`: scalars, Vector3, Expression and Symbol
are allowed and produce a Point3 (through the constructor); anything else —
in particular another Point3 — raises the operation type error. -/
def Point3_add (v : Vec4) (other : PyVal) : Except String PyVal :=
  match other with
  | .scalar _ => .ok (.point (Point3_init (combinePV SX.add v other)))
  | .vector _ => .ok (.point (Point3_init (combinePV SX.add v other)))
  | .expr1 _ => .ok (.point (Point3_init (combinePV SX.add v other)))
  | .expr4 _ => .ok (.point (Point3_init (combinePV SX.add v other)))
  | .symbolV _ => .ok (.point (Point3_init (combinePV SX.add v other)))
  | _ => .error (typeErr (.point v) .addO other)

/-- Translation of `Point3.__sub__`: a Point3 operand yields a Vector3; a
scalar, Symbol, Expression or Vector3 operand yields a Point3. -/
def Point3_sub (v : Vec4) (other : PyVal) : Except String PyVal :=
  match other with
  | .point w => .ok (.vector (Vector3_init (Vec4.zipWith SX.sub v w)))
  | _ => .ok (.point (Point3_init (combinePV SX.sub v other)))

/-- Translation of `Point3.__mul__`, `Point3.__truediv__` and
`Point3.__pow__`, which share one dispatch: scalars, Symbol and Expression
are allowed and produce a Point3; Vector3 and Point3 operands raise. -/
def Point3_scalar_op (op : BinOp) (v : Vec4) (other : PyVal) : Except String PyVal :=
  match other with
  | .scalar _ => .ok (.point (Point3_init (combinePV op.toSX v other)))
  | .symbolV _ => .ok (.point (Point3_init (combinePV op.toSX v other)))
  | .expr1 _ => .ok (.point (Point3_init (combinePV op.toSX v other)))
  | .expr4 _ => .ok (.point (Point3_init (combinePV op.toSX v other)))
  | _ => .error (typeErr (.point v) op other)

/-- Translation of `Vector3.__add__`: a Point3 operand yields a Point3; a
scalar, Symbol, Expression or Vector3 operand yields a Vector3. -/
def Vector3_add (v : Vec4) (other : PyVal) : Except String PyVal :=
  match other with
  | .point w => .ok (.point (Point3_init (Vec4.zipWith SX.add v w)))
  | _ => .ok (.vector (Vector3_init (combinePV SX.add v other)))

/-- Translation of `Vector3.__sub__`: a Point3 operand yields a Point3; a
scalar, Symbol, Expression or Vector3 operand yields a Vector3. -/
def Vector3_sub (v : Vec4) (other : PyVal) : Except String PyVal :=
  match other with
  | .point w => .ok (.point (Point3_init (Vec4.zipWith SX.sub v w)))
  | _ => .ok (.vector (Vector3_init (combinePV SX.sub v other)))

/-- Translation of `Vector3.__mul__`, `Vector3.__truediv__` and
`Vector3.__pow__`: scalars, Symbol and Expression produce a Vector3;
Vector3 and Point3 operands raise. -/
def Vector3_scalar_op (op : BinOp) (v : Vec4) (other : PyVal) : Except String PyVal :=
  match other with
  | .scalar _ => .ok (.vector (Vector3_init (combinePV op.toSX v other)))
  | .symbolV _ => .ok (.vector (Vector3_init (combinePV op.toSX v other)))
  | .expr1 _ => .ok (.vector (Vector3_init (combinePV op.toSX v other)))
  | .expr4 _ => .ok (.vector (Vector3_init (combinePV op.toSX v other)))
  | _ => .error (typeErr (.vector v) op other)

/-- The reflected combination a Point3/Vector3 method computes when the left
operand is a plain number: `__radd__` and `__rmul__` reuse the forward
casadi operation, while `__rsub__`, `__rtruediv__` and `__rpow__` put the
number on the left. -/
def rcombineVec (op : BinOp) (v : Vec4) (c : ℚ) : Vec4 :=
  match op with
  | .addO => Vec4.mapR SX.add v (SX.const c)
  | .subO => Vec4.mapL SX.sub (SX.const c) v
  | .mulO => Vec4.mapR SX.mul v (SX.const c)
  | .divO => Vec4.mapL SX.div (SX.const c) v
  | .powO => Vec4.mapL SX.pow (SX.const c) v

/-- Shape of an Expression operand: 1x1 scalar or 4x1 column. -/
inductive EShape where
  | one (e : SX)
  | four (v : Vec4)
deriving DecidableEq

def PyVal.exprOf : EShape → PyVal
  | .one e => .expr1 e
  | .four v => .expr4 v

/-- Casadi broadcast combination of two Expression shapes. -/
def combineES (f : SX → SX → SX) : EShape → EShape → EShape
  | .one a, .one b => .one (f a b)
  | .one a, .four w => .four (Vec4.mapL f a w)
  | .four v, .one b => .four (Vec4.mapR f v b)
  | .four v, .four w => .four (Vec4.zipWith f v w)

/-- Casadi combination of an Expression shape with a 4x1 column. -/
def combineE4 (f : SX → SX → SX) (self : EShape) (w : Vec4) : Vec4 :=
  match self with
  | .one e => Vec4.mapL f e w
  | .four v => Vec4.zipWith f v w

/-- Translation of `Expression.__add__/__sub__/__mul__/__truediv__/__pow__`,
which share one dispatch: scalars, Expression and Symbol produce an
Expression; a Point3 operand produces a Point3 and a Vector3 operand a
Vector3 (each rebuilt through its constructor). -/
def Expression_binop (op : BinOp) (self : EShape) (other : PyVal) : Except String PyVal :=
  match other with
  | .scalar c => .ok (.exprOf (combineES op.toSX self (.one (SX.const c))))
  | .point w => .ok (.point (Point3_init (combineE4 op.toSX self w)))
  | .vector w => .ok (.vector (Vector3_init (combineE4 op.toSX self w)))
  | .expr1 e => .ok (.exprOf (combineES op.toSX self (.one e)))
  | .expr4 w => .ok (.exprOf (combineES op.toSX self (.four w)))
  | .symbolV n => .ok (.exprOf (combineES op.toSX self (.one (SX.sym n))))

/-- Translation of the reflected Expression methods, which only accept plain
numbers and produce an Expression with the number on the correct side. -/
def Expression_rbinop (op : BinOp) (self : EShape) (c : ℚ) : Except String PyVal :=
  match op with
  | .addO => .ok (.exprOf (combineES SX.add self (.one (SX.const c))))
  | .subO => .ok (.exprOf (combineES SX.sub (.one (SX.const c)) self))
  | .mulO => .ok (.exprOf (combineES SX.mul self (.one (SX.const c))))
  | .divO => .ok (.exprOf (combineES SX.div (.one (SX.const c)) self))
  | .powO => .ok (.exprOf (combineES SX.pow (.one (SX.const c)) self))

/-- Translation of `Symbol.__add__/__sub__/__mul__/__truediv__/__pow__`,
which share one dispatch: a scalar, Symbol or Expression operand produces
an Expression; a Vector3 produces a Vector3; a Point3 produces a Point3. -/
def Symbol_binop (op : BinOp) (n : String) (other : PyVal) : Except String PyVal :=
  match other with
  | .scalar c => .ok (.expr1 (op.toSX (SX.sym n) (SX.const c)))
  | .symbolV m => .ok (.expr1 (op.toSX (SX.sym n) (SX.sym m)))
  | .expr1 e => .ok (.expr1 (op.toSX (SX.sym n) e))
  | .expr4 v => .ok (.expr4 (Vec4.mapL op.toSX (SX.sym n) v))
  | .vector v => .ok (.vector (Vector3_init (Vec4.mapL op.toSX (SX.sym n) v)))
  | .point v => .ok (.point (Point3_init (Vec4.mapL op.toSX (SX.sym n) v)))

/-- Translation of the reflected Symbol methods (scalar left operand only). -/
def Symbol_rbinop (op : BinOp) (n : String) (c : ℚ) : Except String PyVal :=
  match op with
  | .addO => .ok (.expr1 (SX.add (SX.sym n) (SX.const c)))
  | .subO => .ok (.expr1 (SX.sub (SX.const c) (SX.sym n)))
  | .mulO => .ok (.expr1 (SX.mul (SX.sym n) (SX.const c)))
  | .divO => .ok (.expr1 (SX.div (SX.const c) (SX.sym n)))
  | .powO => .ok (.expr1 (SX.pow (SX.const c) (SX.sym n)))

/-- Plain Python arithmetic between two numbers. -/
def scalarBin (op : BinOp) (c d : ℚ) : ℚ :=
  match op with
  | .addO => c + d
  | .subO => c - d
  | .mulO => c * d
  | .divO => c / d
  | .powO => qpow c d

/-- Dispatch of `Point3.__add__/__sub__/__mul__/__truediv__/__pow__`. -/
def Point3_binop (op : BinOp) (v : Vec4) (other : PyVal) : Except String PyVal :=
  match op with
  | .addO => Point3_add v other
  | .subO => Point3_sub v other
  | _ => Point3_scalar_op op v other

/-- Dispatch of `Vector3.__add__/__sub__/__mul__/__truediv__/__pow__`. -/
def Vector3_binop (op : BinOp) (v : Vec4) (other : PyVal) : Except String PyVal :=
  match op with
  | .addO => Vector3_add v other
  | .subO => Vector3_sub v other
  | _ => Vector3_scalar_op op v other

/-- Python binary-operator semantics over the dispatch table: a number on the
left defers to the right operand's reflected method; otherwise the left
operand's method decides. -/
def pyBin (op : BinOp) (a b : PyVal) : Except String PyVal :=
  match a with
  | .scalar c =>
      match b with
      | .scalar d => .ok (.scalar (scalarBin op c d))
      | .symbolV n => Symbol_rbinop op n c
      | .expr1 e => Expression_rbinop op (.one e) c
      | .expr4 v => Expression_rbinop op (.four v) c
      | .point v => .ok (.point (Point3_init (rcombineVec op v c)))
      | .vector v => .ok (.vector (Vector3_init (rcombineVec op v c)))
  | .symbolV n => Symbol_binop op n b
  | .expr1 e => Expression_binop op (.one e) b
  | .expr4 v => Expression_binop op (.four v) b
  | .point v => Point3_binop op v b
  | .vector v => Vector3_binop op v b

/-- Translation of unary negation for each operand class (`__neg__`). -/
def pyNeg : PyVal → PyVal
  | .scalar c => .scalar (-c)
  | .symbolV n => .expr1 (SX.neg (SX.sym n))
  | .expr1 e => .expr1 (SX.neg e)
  | .expr4 v => .expr4 (Vec4.mapU SX.neg v)
  | .point v => .point (Point3_init (Vec4.mapU SX.neg v))
  | .vector v => .vector (Vector3_init (Vec4.mapU SX.neg v))

/-- Homogeneous-coordinate invariant: a Point3's fourth entry evaluates to 1
and a Vector3's fourth entry evaluates to 0, for every assignment. -/
def homogOK : PyVal → Prop
  | .point v => ∀ env : String → ℚ, v.e3.eval env = 1
  | .vector v => ∀ env : String → ℚ, v.e3.eval env = 0
  | _ => True

/-- C3: the homogeneous component is 1 for every Point3 and 0 for every
Vector3 produced by a public constructor, by any dispatched binary
operation, or by unary negation. -/
theorem homogeneous_invariant :
    (∀ x y z : SX, homogOK (.point (Point3_from_xyz x y z))
        ∧ homogOK (.vector (Vector3_from_xyz x y z)))
    ∧ (∀ (op : BinOp) (a b r : PyVal), pyBin op a b = .ok r → homogOK r)
    ∧ (∀ a : PyVal, homogOK (pyNeg a)) := by
  refine ⟨?_, ?_, ?_⟩
  · intro x y z
    exact ⟨fun _ => rfl, fun _ => rfl⟩
  · intro op a b r h
    cases op <;> cases a <;> cases b <;>
      simp only [pyBin, Symbol_binop, Symbol_rbinop, Expression_binop, Expression_rbinop,
        Point3_binop, Vector3_binop, Point3_add, Point3_sub, Point3_scalar_op,
        Vector3_add, Vector3_sub, Vector3_scalar_op, BinOp.toSX, rcombineVec,
        scalarBin, combinePV, combineES, combineE4, PyVal.exprOf,
        Except.ok.injEq, reduceCtorEq] at h <;>
      subst h <;>
      first
        | trivial
        | exact fun _ => rfl
  · intro a
    cases a <;> first | trivial | exact fun _ => rfl

/-- Witness for `homogeneous_invariant`: adding a concrete Vector3 to a
concrete Point3 produces a Point3 whose homogeneous entry evaluates to 1. -/
theorem homogeneous_invariant_witness :
    pyBin .addO (.point ⟨.const 1, .const 2, .const 3, .const 1⟩)
        (.vector ⟨.const 4, .const 5, .const 6, .const 0⟩)
      = .ok (.point ⟨.add (.const 1) (.const 4), .add (.const 2) (.const 5),
          .add (.const 3) (.const 6), .const 1⟩)
    ∧ homogOK (.point ⟨.add (.const 1) (.const 4), .add (.const 2) (.const 5),
        .add (.const 3) (.const 6), .const 1⟩) :=
  ⟨rfl, homogeneous_invariant.2.1 .addO
    (.point ⟨.const 1, .const 2, .const 3, .const 1⟩)
    (.vector ⟨.const 4, .const 5, .const 6, .const 0⟩)
    (.point ⟨.add (.const 1) (.const 4), .add (.const 2) (.const 5),
      .add (.const 3) (.const 6), .const 1⟩) rfl⟩

/-- C4: Point3 + Vector3 is a Point3; Point3 - Point3 is a Vector3;
Point3 + Point3 and Point3 * Point3 raise the operation type error; and a
plain number combined with a Point3 or Vector3 on either side, under every
dispatched operator, yields the same geometric type componentwise. -/
theorem point_vector_dispatch_table :
    (∀ p v : Vec4, ∃ r, pyBin .addO (.point p) (.vector v) = .ok (.point r))
    ∧ (∀ p q : Vec4, ∃ r, pyBin .subO (.point p) (.point q) = .ok (.vector r))
    ∧ (∀ p q : Vec4, pyBin .addO (.point p) (.point q)
        = .error (typeErr (.point p) .addO (.point q)))
    ∧ (∀ p q : Vec4, pyBin .mulO (.point p) (.point q)
        = .error (typeErr (.point p) .mulO (.point q)))
    ∧ (∀ (op : BinOp) (c : ℚ) (p : Vec4),
        (∃ r, pyBin op (.scalar c) (.point p) = .ok (.point r))
        ∧ (∃ r, pyBin op (.point p) (.scalar c) = .ok (.point r))
        ∧ (∃ r, pyBin op (.scalar c) (.vector p) = .ok (.vector r))
        ∧ (∃ r, pyBin op (.vector p) (.scalar c) = .ok (.vector r))) := by
  refine ⟨?_, ?_, ?_, ?_, ?_⟩
  · intro p v
    exact ⟨_, rfl⟩
  · intro p q
    exact ⟨_, rfl⟩
  · intro p q
    rfl
  · intro p q
    rfl
  · intro op c p
    cases op <;> exact ⟨⟨_, rfl⟩, ⟨_, rfl⟩, ⟨_, rfl⟩, ⟨_, rfl⟩⟩

/-! ## Compilation engine -/

/-- Concatenation of a list of lists (flattening parameter groups and csc
column data). -/
def concatAll {α : Type} : List (List α) → List α
  | [] => []
  | l :: ls => l ++ concatAll ls

theorem mem_concatAll {α : Type} {a : α} {ls : List (List α)} :
    a ∈ concatAll ls ↔ ∃ l ∈ ls, a ∈ l := by
  induction ls with
  | nil => simp [concatAll]
  | cons l rest ih => simp [concatAll, ih]

theorem concatAll_map {α β : Type} (f : α → β) (ls : List (List α)) :
    concatAll (ls.map (List.map f)) = (concatAll ls).map f := by
  induction ls with
  | nil => rfl
  | cons l rest ih => simp [concatAll, ih]

/-- A symbolic matrix (`Expression`), represented as its list of columns
(casadi matrices and the dense output buffer are column-major). -/
abbrev ExprMat := List (List SX)

/-- Direct numeric substitution into every entry of the matrix. -/
def denseEval (env : String → ℚ) (m : ExprMat) : List (List ℚ) :=
  m.map (List.map (SX.eval env))

/-- Free symbol names of a matrix. -/
def matFreeSyms (m : ExprMat) : List String :=
  concatAll (m.map (fun col => concatAll (col.map SX.freeSyms)))

theorem mem_matFreeSyms {m : ExprMat} {col : List SX} {e : SX} {s : String}
    (hcol : col ∈ m) (he : e ∈ col) (hs : s ∈ e.freeSyms) : s ∈ matFreeSyms m := by
  unfold matFreeSyms
  rw [mem_concatAll]
  refine ⟨concatAll (col.map SX.freeSyms), List.mem_map_of_mem _ hcol, ?_⟩
  rw [mem_concatAll]
  exact ⟨e.freeSyms, List.mem_map_of_mem _ he, hs⟩

theorem denseEval_congr (m : ExprMat) (env1 env2 : String → ℚ)
    (h : ∀ s ∈ matFreeSyms m, env1 s = env2 s) :
    denseEval env1 m = denseEval env2 m := by
  unfold denseEval
  refine List.map_congr_left ?_
  intro col hcol
  refine List.map_congr_left ?_
  intro e he
  exact SX.eval_congr e _ _ (fun s hs => h s (mem_matFreeSyms hcol he hs))

/-- Lookup of a bound parameter value by name (0 for unbound names; the
coverage hypothesis keeps free symbols bound). -/
def bindList : List (String × ℚ) → String → ℚ
  | [], _ => 0
  | (k, v) :: rest, n => if k = n then v else bindList rest n

theorem bindList_zip_map (decl : List String) (env : String → ℚ) (n : String)
    (hn : n ∈ decl) : bindList (decl.zip (decl.map env)) n = env n := by
  induction decl with
  | nil => cases hn
  | cons k rest ih =>
      show (if k = n then env k else bindList (rest.zip (rest.map env)) n) = env n
      by_cases hk : k = n
      · rw [if_pos hk, hk]
      · rw [if_neg hk]
        rcases List.mem_cons.mp hn with h | h
        · exact absurd h.symm hk
        · exact ih h

/-- Modelled from the spec: the compiled casadi evaluator
(`ca.Function('f', parameters, [expr])` plus the `buffer`/`set_arg`/
`set_res` protocol) is external to this repository; per the specification
it binds the declared parameter symbols, in their declared flattened
order, to the concatenation of the supplied argument buffers and writes
the expression's value under direct substitution into the output
buffer. -/
def casadiEvaluator (m : ExprMat) (declared : List String) (vals : List ℚ) :
    List (List ℚ) :=
  denseEval (bindList (declared.zip vals)) m

/-- State of a `CompiledFunction`: the compiled expression and the declared,
ordered parameter groups. -/
structure CompiledFunction where
  expression : ExprMat
  symbol_parameters : List (List String)

/-- Translation of `CompiledFunction.fast_call`: the supplied argument
buffers are bound positionally and the evaluator runs — except that a
function with an empty parameter list was already evaluated once at
construction time and returns that stored constant on every call. -/
def CompiledFunction.fast_call (f : CompiledFunction) (args : List (List ℚ)) :
    List (List ℚ) :=
  if f.symbol_parameters.length = 0 then
    casadiEvaluator f.expression [] []
  else
    casadiEvaluator f.expression (concatAll f.symbol_parameters) (concatAll args)

/-- Translation of `CompiledFunction.__call__`: keyword values are read off
in declared parameter-group order into one flat positional array which is
handed to `fast_call`. -/
def CompiledFunction.callKw (f : CompiledFunction) (kwargs : String → ℚ) :
    List (List ℚ) :=
  f.fast_call [(concatAll f.symbol_parameters).map kwargs]

/-- Structural-zero test: after `ca.sparsify` the stored constant 0 becomes a
structural zero excluded from the sparsity pattern. -/
def structZero (e : SX) : Bool := e = SX.const 0

/-- Values of the structurally nonzero entries of one column (one column's
slice of the csc data buffer). -/
def colData (env : String → ℚ) (col : List SX) : List ℚ :=
  (col.filter (fun e => !structZero e)).map (SX.eval env)

/-- Sparse-mode output: for each column only the structurally nonzero slots
are stored, evaluated under the same positional binding as `fast_call`. -/
def CompiledFunction.sparse_out (f : CompiledFunction) (args : List (List ℚ)) :
    List (List ℚ) :=
  if f.symbol_parameters.length = 0 then
    f.expression.map (colData (bindList []))
  else
    f.expression.map
      (colData (bindList ((concatAll f.symbol_parameters).zip (concatAll args))))

/-- Reconstruct a dense column from the sparsity pattern and the csc data
slots: a 0 for every structural zero, the next stored value otherwise. -/
def reconstructCol : List SX → List ℚ → List ℚ
  | [], _ => []
  | e :: es, data =>
      if structZero e then 0 :: reconstructCol es data
      else
        match data with
        | [] => []
        | d :: ds => d :: reconstructCol es ds

/-- Reconstruct the dense matrix from per-column csc data. -/
def reconstruct (m : ExprMat) (dataCols : List (List ℚ)) : List (List ℚ) :=
  (m.zip dataCols).map (fun p => reconstructCol p.1 p.2)

theorem reconstructCol_colData (env : String → ℚ) (col : List SX) :
    reconstructCol col (colData env col) = col.map (SX.eval env) := by
  induction col with
  | nil => rfl
  | cons e es ih =>
      by_cases hz : structZero e = true
      · have he : e = SX.const 0 := of_decide_eq_true hz
        show reconstructCol (e :: es) ((List.filter _ (e :: es)).map _) = _
        rw [List.filter_cons]
        have : (!structZero e) = false := by rw [hz]; rfl
        rw [this]
        simp only [Bool.false_eq_true, if_false]
        show (if structZero e then 0 :: reconstructCol es (colData env es) else _)
            = SX.eval env e :: es.map (SX.eval env)
        rw [if_pos hz, ih, he]
        rfl
      · have hz' : (!structZero e) = true := by
          cases h : structZero e
          · rfl
          · exact absurd h hz
        show reconstructCol (e :: es) ((List.filter _ (e :: es)).map _) = _
        rw [List.filter_cons, hz']
        simp only [if_true]
        show (if structZero e then _ else SX.eval env e :: reconstructCol es (colData env es))
            = SX.eval env e :: es.map (SX.eval env)
        rw [if_neg hz, ih]

theorem reconstruct_sparse (env : String → ℚ) (m : ExprMat) :
    reconstruct m (m.map (colData env)) = denseEval env m := by
  induction m with
  | nil => rfl
  | cons col rest ih =>
      show reconstructCol col (colData env col) :: reconstruct rest (rest.map (colData env))
          = col.map (SX.eval env) :: denseEval env rest
      rw [reconstructCol_colData, ih]

/-- C1: calling the compiled function — through the keyword `__call__` or the
positional `fast_call`, in dense or sparse mode — returns the value
obtained by direct substitution of the parameter values into the symbolic
expression, provided the declared parameter groups cover the free symbols;
and an expression with an empty parameter list is compiled to a constant
(evaluated once at construction) returned on every call with any
arguments. -/
theorem compiled_function_equivalence (m : ExprMat) (params : List (List String))
    (env : String → ℚ)
    (hcover : (matFreeSyms m).all (fun s => decide (s ∈ concatAll params)) = true) :
    CompiledFunction.callKw ⟨m, params⟩ env = denseEval env m
    ∧ CompiledFunction.fast_call ⟨m, params⟩ (params.map (fun g => g.map env))
        = denseEval env m
    ∧ reconstruct m
        (CompiledFunction.sparse_out ⟨m, params⟩ (params.map (fun g => g.map env)))
        = denseEval env m
    ∧ (params = [] →
        (∀ kwargs : String → ℚ,
          CompiledFunction.callKw ⟨m, params⟩ kwargs = denseEval env m)
        ∧ (∀ args : List (List ℚ),
          CompiledFunction.fast_call ⟨m, params⟩ args = denseEval env m)) := by
  have hcov : ∀ s ∈ matFreeSyms m, s ∈ concatAll params := by
    rw [List.all_eq_true] at hcover
    intro s hs
    exact of_decide_eq_true (hcover s hs)
  have hfs : params.length = 0 → ∀ env2 : String → ℚ,
      denseEval env2 m = denseEval env m := by
    intro hp env2
    refine denseEval_congr m env2 env ?_
    intro s hs
    have hmem := hcov s hs
    rw [List.length_eq_zero] at hp
    subst hp
    cases hmem
  have hbind :
      denseEval (bindList ((concatAll params).zip ((concatAll params).map env))) m
        = denseEval env m :=
    denseEval_congr m _ env (fun s hs => bindList_zip_map _ env s (hcov s hs))
  have hargsflat : concatAll (params.map (fun g => g.map env))
      = (concatAll params).map env := concatAll_map env params
  refine ⟨?_, ?_, ?_, ?_⟩
  · simp only [CompiledFunction.callKw, CompiledFunction.fast_call]
    by_cases hp : params.length = 0
    · rw [if_pos hp]
      exact hfs hp _
    · rw [if_neg hp]
      simp only [casadiEvaluator, concatAll, List.append_nil]
      exact hbind
  · simp only [CompiledFunction.fast_call]
    by_cases hp : params.length = 0
    · rw [if_pos hp]
      exact hfs hp _
    · rw [if_neg hp]
      simp only [casadiEvaluator]
      rw [hargsflat]
      exact hbind
  · simp only [CompiledFunction.sparse_out]
    by_cases hp : params.length = 0
    · rw [if_pos hp]
      rw [reconstruct_sparse]
      exact hfs hp _
    · rw [if_neg hp]
      rw [hargsflat, reconstruct_sparse]
      exact hbind
  · intro hp0
    have hp : params.length = 0 := by rw [hp0]; rfl
    constructor
    · intro kwargs
      simp only [CompiledFunction.callKw, CompiledFunction.fast_call]
      rw [if_pos hp]
      exact hfs hp _
    · intro args
      simp only [CompiledFunction.fast_call]
      rw [if_pos hp]
      exact hfs hp _

/-- Witness for `compiled_function_equivalence` on the 1x1 expression
[[a + 1]] with the single parameter group ["a"] and the binding a = 2. -/
theorem compiled_function_equivalence_witness :
    ((matFreeSyms [[SX.add (SX.sym ("a")) (SX.const 1)]]).all
      (fun s => decide (s ∈ concatAll [[("a" : String)]]))) = true
    ∧ CompiledFunction.callKw ⟨[[SX.add (SX.sym ("a")) (SX.const 1)]], [[("a")]]⟩
        (fun s => if s = ("a") then 2 else 0)
      = denseEval (fun s => if s = ("a") then 2 else 0)
          [[SX.add (SX.sym ("a")) (SX.const 1)]] :=
  ⟨by decide,
    (compiled_function_equivalence [[SX.add (SX.sym ("a")) (SX.const 1)]] [[("a")]]
      (fun s => if s = ("a") then 2 else 0) (by decide)).1⟩

/-! ## Quaternion / rotation-matrix conversions over the reals -/

noncomputable section

/-- Numeric semantics of `if_greater_zero(condition, a, b)`
(= `if_else(condition > 0, a, b)`). -/
def ifgz (c a b : ℝ) : ℝ := if 0 < c then a else b

/-- A 4x4 real matrix (the evaluated `RotationMatrix`). -/
structure Mat4R where
  m00 : ℝ
  m01 : ℝ
  m02 : ℝ
  m03 : ℝ
  m10 : ℝ
  m11 : ℝ
  m12 : ℝ
  m13 : ℝ
  m20 : ℝ
  m21 : ℝ
  m22 : ℝ
  m23 : ℝ
  m30 : ℝ
  m31 : ℝ
  m32 : ℝ
  m33 : ℝ

/-- Translation of `RotationMatrix.__quaternion_to_rotation_matrix` (the body
of `RotationMatrix.from_quaternion`): the bilinear closed form with the
homogeneous row and column fixed. -/
def quaternion_to_rotation_matrix (x y z w : ℝ) : Mat4R :=
  ⟨w*w + x*x - y*y - z*z, 2*x*y - 2*w*z, 2*x*z + 2*w*y, 0,
   2*x*y + 2*w*z, w*w - x*x + y*y - z*z, 2*y*z - 2*w*x, 0,
   2*x*z - 2*w*y, 2*y*z + 2*w*x, w*w - x*x - y*y + z*z, 0,
   0, 0, 0, 1⟩

/-- Translation of `Quaternion.from_rotation_matrix`: the four-branch
"biggest diagonal element" extraction, every branch selected through
`if_greater_zero`, then rescaled by `0.5 / sqrt(t * r[3,3])`. -/
def Quaternion_from_rotation_matrix (r : Mat4R) : ℝ × ℝ × ℝ × ℝ :=
  let t := r.m00 + r.m11 + r.m22 + r.m33
  let if0 := t - r.m33
  let if1 := r.m11 - r.m00
  let m_i_i := ifgz if1 r.m11 r.m00
  let m_i_j := ifgz if1 r.m12 r.m01
  let m_i_k := ifgz if1 r.m10 r.m02
  let m_j_i := ifgz if1 r.m21 r.m10
  let m_j_j := ifgz if1 r.m22 r.m11
  let m_j_k := ifgz if1 r.m20 r.m12
  let m_k_i := ifgz if1 r.m01 r.m20
  let m_k_j := ifgz if1 r.m02 r.m21
  let m_k_k := ifgz if1 r.m00 r.m22
  let if2 := r.m22 - m_i_i
  let n_i_i := ifgz if2 r.m22 m_i_i
  let n_i_j := ifgz if2 r.m20 m_i_j
  let n_i_k := ifgz if2 r.m21 m_i_k
  let n_j_i := ifgz if2 r.m02 m_j_i
  let n_j_j := ifgz if2 r.m00 m_j_j
  let n_j_k := ifgz if2 r.m01 m_j_k
  let n_k_i := ifgz if2 r.m12 m_k_i
  let n_k_j := ifgz if2 r.m10 m_k_j
  let n_k_k := ifgz if2 r.m11 m_k_k
  let t2 := ifgz if0 t (n_i_i - (n_j_j + n_k_k) + r.m33)
  let q0 := ifgz if0 (r.m21 - r.m12)
      (ifgz if2 (n_i_j + n_j_i) (ifgz if1 (n_k_i + n_i_k) t2))
  let q1 := ifgz if0 (r.m02 - r.m20)
      (ifgz if2 (n_k_i + n_i_k) (ifgz if1 t2 (n_i_j + n_j_i)))
  let q2 := ifgz if0 (r.m10 - r.m01)
      (ifgz if2 t2 (ifgz if1 (n_i_j + n_j_i) (n_k_i + n_i_k)))
  let q3 := ifgz if0 t2 (n_k_j - n_j_k)
  let s := (1/2) / Real.sqrt (t2 * r.m33)
  (q0 * s, q1 * s, q2 * s, q3 * s)

/-- Branch reduction: trace-positive case. -/
theorem from_rotation_matrix_trace (r : Mat4R)
    (h0 : 0 < r.m00 + r.m11 + r.m22 + r.m33 - r.m33) :
    Quaternion_from_rotation_matrix r =
      ((r.m21 - r.m12) * ((1/2) / Real.sqrt ((r.m00 + r.m11 + r.m22 + r.m33) * r.m33)),
       (r.m02 - r.m20) * ((1/2) / Real.sqrt ((r.m00 + r.m11 + r.m22 + r.m33) * r.m33)),
       (r.m10 - r.m01) * ((1/2) / Real.sqrt ((r.m00 + r.m11 + r.m22 + r.m33) * r.m33)),
       (r.m00 + r.m11 + r.m22 + r.m33)
         * ((1/2) / Real.sqrt ((r.m00 + r.m11 + r.m22 + r.m33) * r.m33))) := by
  simp only [Quaternion_from_rotation_matrix, ifgz]
  simp only [if_pos h0]

/-- Branch reduction: x-dominant case (trace not positive, first diagonal
dominant). -/
theorem from_rotation_matrix_xcase (r : Mat4R)
    (h0 : ¬ 0 < r.m00 + r.m11 + r.m22 + r.m33 - r.m33)
    (h1 : ¬ 0 < r.m11 - r.m00)
    (h2 : ¬ 0 < r.m22 - r.m00) :
    Quaternion_from_rotation_matrix r =
      ((r.m00 - (r.m11 + r.m22) + r.m33)
         * ((1/2) / Real.sqrt ((r.m00 - (r.m11 + r.m22) + r.m33) * r.m33)),
       (r.m01 + r.m10)
         * ((1/2) / Real.sqrt ((r.m00 - (r.m11 + r.m22) + r.m33) * r.m33)),
       (r.m20 + r.m02)
         * ((1/2) / Real.sqrt ((r.m00 - (r.m11 + r.m22) + r.m33) * r.m33)),
       (r.m21 - r.m12)
         * ((1/2) / Real.sqrt ((r.m00 - (r.m11 + r.m22) + r.m33) * r.m33))) := by
  simp only [Quaternion_from_rotation_matrix, ifgz]
  simp only [if_neg h1]
  simp only [if_neg h2]
  simp only [if_neg h0]

/-- Branch reduction: y-dominant case (trace not positive, second diagonal
dominant). -/
theorem from_rotation_matrix_ycase (r : Mat4R)
    (h0 : ¬ 0 < r.m00 + r.m11 + r.m22 + r.m33 - r.m33)
    (h1 : 0 < r.m11 - r.m00)
    (h2 : ¬ 0 < r.m22 - r.m11) :
    Quaternion_from_rotation_matrix r =
      ((r.m01 + r.m10)
         * ((1/2) / Real.sqrt ((r.m11 - (r.m22 + r.m00) + r.m33) * r.m33)),
       (r.m11 - (r.m22 + r.m00) + r.m33)
         * ((1/2) / Real.sqrt ((r.m11 - (r.m22 + r.m00) + r.m33) * r.m33)),
       (r.m12 + r.m21)
         * ((1/2) / Real.sqrt ((r.m11 - (r.m22 + r.m00) + r.m33) * r.m33)),
       (r.m02 - r.m20)
         * ((1/2) / Real.sqrt ((r.m11 - (r.m22 + r.m00) + r.m33) * r.m33))) := by
  simp only [Quaternion_from_rotation_matrix, ifgz]
  simp only [if_pos h1]
  simp only [if_neg h2]
  simp only [if_neg h0]

/-- Branch reduction: z-dominant case reached through the second diagonal
(trace not positive, m11 > m00, m22 > m11). -/
theorem from_rotation_matrix_zcase_a (r : Mat4R)
    (h0 : ¬ 0 < r.m00 + r.m11 + r.m22 + r.m33 - r.m33)
    (h1 : 0 < r.m11 - r.m00)
    (h2 : 0 < r.m22 - r.m11) :
    Quaternion_from_rotation_matrix r =
      ((r.m20 + r.m02)
         * ((1/2) / Real.sqrt ((r.m22 - (r.m00 + r.m11) + r.m33) * r.m33)),
       (r.m12 + r.m21)
         * ((1/2) / Real.sqrt ((r.m22 - (r.m00 + r.m11) + r.m33) * r.m33)),
       (r.m22 - (r.m00 + r.m11) + r.m33)
         * ((1/2) / Real.sqrt ((r.m22 - (r.m00 + r.m11) + r.m33) * r.m33)),
       (r.m10 - r.m01)
         * ((1/2) / Real.sqrt ((r.m22 - (r.m00 + r.m11) + r.m33) * r.m33))) := by
  simp only [Quaternion_from_rotation_matrix, ifgz]
  simp only [if_pos h1]
  simp only [if_pos h2]
  simp only [if_neg h0]

/-- Branch reduction: z-dominant case reached through the first diagonal
(trace not positive, m11 not above m00, m22 > m00). -/
theorem from_rotation_matrix_zcase_b (r : Mat4R)
    (h0 : ¬ 0 < r.m00 + r.m11 + r.m22 + r.m33 - r.m33)
    (h1 : ¬ 0 < r.m11 - r.m00)
    (h2 : 0 < r.m22 - r.m00) :
    Quaternion_from_rotation_matrix r =
      ((r.m20 + r.m02)
         * ((1/2) / Real.sqrt ((r.m22 - (r.m00 + r.m11) + r.m33) * r.m33)),
       (r.m12 + r.m21)
         * ((1/2) / Real.sqrt ((r.m22 - (r.m00 + r.m11) + r.m33) * r.m33)),
       (r.m22 - (r.m00 + r.m11) + r.m33)
         * ((1/2) / Real.sqrt ((r.m22 - (r.m00 + r.m11) + r.m33) * r.m33)),
       (r.m10 - r.m01)
         * ((1/2) / Real.sqrt ((r.m22 - (r.m00 + r.m11) + r.m33) * r.m33))) := by
  simp only [Quaternion_from_rotation_matrix, ifgz]
  simp only [if_neg h1]
  simp only [if_pos h2]
  simp only [if_neg h0]

/-- C2: for every unit quaternion (x, y, z, w), converting it to a rotation
matrix with `RotationMatrix.from_quaternion` and extracting a quaternion
back with `Quaternion.from_rotation_matrix` returns the original
quaternion up to a global sign. -/
theorem quaternion_round_trip (x y z w : ℝ) (h : x^2 + y^2 + z^2 + w^2 = 1) :
    Quaternion_from_rotation_matrix (quaternion_to_rotation_matrix x y z w)
      = (x, y, z, w)
    ∨ Quaternion_from_rotation_matrix (quaternion_to_rotation_matrix x y z w)
      = (-x, -y, -z, -w) := by
  by_cases h0 : 0 < w*w + x*x - y*y - z*z + (w*w - x*x + y*y - z*z)
      + (w*w - x*x - y*y + z*z) + 1 - 1
  · -- trace-positive branch: the dominant component is w
    rw [from_rotation_matrix_trace (quaternion_to_rotation_matrix x y z w)
      (by simp only [quaternion_to_rotation_matrix]; exact h0)]
    simp only [quaternion_to_rotation_matrix, mul_one]
    have hw2 : 1/4 < w*w := by nlinarith [h, h0]
    have hwne : w ≠ 0 := by
      intro hx0
      rw [hx0] at hw2
      norm_num at hw2
    rcases lt_trichotomy w 0 with hw | hw | hw
    · right
      have hT : w*w + x*x - y*y - z*z + (w*w - x*x + y*y - z*z)
          + (w*w - x*x - y*y + z*z) + 1 = (2*(-w))^2 := by linear_combination -h
      rw [hT, Real.sqrt_sq (by linarith : (0:ℝ) ≤ 2*(-w))]
      simp only [Prod.mk.injEq]
      refine ⟨?_, ?_, ?_, ?_⟩
      · field_simp
        ring
      · field_simp
        ring
      · field_simp
        ring
      · field_simp
        ring
    · exact absurd hw hwne
    · left
      have hT : w*w + x*x - y*y - z*z + (w*w - x*x + y*y - z*z)
          + (w*w - x*x - y*y + z*z) + 1 = (2*w)^2 := by linear_combination -h
      rw [hT, Real.sqrt_sq (by linarith : (0:ℝ) ≤ 2*w)]
      simp only [Prod.mk.injEq]
      refine ⟨?_, ?_, ?_, ?_⟩
      · field_simp
        ring
      · field_simp
        ring
      · field_simp
        ring
      · field_simp
        ring
  · by_cases h1 : 0 < w*w - x*x + y*y - z*z - (w*w + x*x - y*y - z*z)
    · by_cases h2 : 0 < w*w - x*x - y*y + z*z - (w*w - x*x + y*y - z*z)
      · -- z-dominant branch reached with m11 > m00
        rw [from_rotation_matrix_zcase_a (quaternion_to_rotation_matrix x y z w)
          (by simp only [quaternion_to_rotation_matrix]; exact h0)
          (by simp only [quaternion_to_rotation_matrix]; exact h1)
          (by simp only [quaternion_to_rotation_matrix]; exact h2)]
        simp only [quaternion_to_rotation_matrix, mul_one]
        have hz2 : 1/4 < z*z := by nlinarith [h, h0, h1, h2]
        have hzne : z ≠ 0 := by
          intro hx0
          rw [hx0] at hz2
          norm_num at hz2
        rcases lt_trichotomy z 0 with hz | hz | hz
        · right
          have hT : w*w - x*x - y*y + z*z - (w*w + x*x - y*y - z*z
              + (w*w - x*x + y*y - z*z)) + 1 = (2*(-z))^2 := by linear_combination -h
          rw [hT, Real.sqrt_sq (by linarith : (0:ℝ) ≤ 2*(-z))]
          simp only [Prod.mk.injEq]
          refine ⟨?_, ?_, ?_, ?_⟩
          · field_simp
            ring
          · field_simp
            ring
          · field_simp
            ring
          · field_simp
            ring
        · exact absurd hz hzne
        · left
          have hT : w*w - x*x - y*y + z*z - (w*w + x*x - y*y - z*z
              + (w*w - x*x + y*y - z*z)) + 1 = (2*z)^2 := by linear_combination -h
          rw [hT, Real.sqrt_sq (by linarith : (0:ℝ) ≤ 2*z)]
          simp only [Prod.mk.injEq]
          refine ⟨?_, ?_, ?_, ?_⟩
          · field_simp
            ring
          · field_simp
            ring
          · field_simp
            ring
          · field_simp
            ring
      · -- y-dominant branch
        rw [from_rotation_matrix_ycase (quaternion_to_rotation_matrix x y z w)
          (by simp only [quaternion_to_rotation_matrix]; exact h0)
          (by simp only [quaternion_to_rotation_matrix]; exact h1)
          (by simp only [quaternion_to_rotation_matrix]; exact h2)]
        simp only [quaternion_to_rotation_matrix, mul_one]
        have hy2 : 1/4 < y*y := by nlinarith [h, h0, h1, h2]
        have hyne : y ≠ 0 := by
          intro hx0
          rw [hx0] at hy2
          norm_num at hy2
        rcases lt_trichotomy y 0 with hy | hy | hy
        · right
          have hT : w*w - x*x + y*y - z*z - (w*w - x*x - y*y + z*z
              + (w*w + x*x - y*y - z*z)) + 1 = (2*(-y))^2 := by linear_combination -h
          rw [hT, Real.sqrt_sq (by linarith : (0:ℝ) ≤ 2*(-y))]
          simp only [Prod.mk.injEq]
          refine ⟨?_, ?_, ?_, ?_⟩
          · field_simp
            ring
          · field_simp
            ring
          · field_simp
            ring
          · field_simp
            ring
        · exact absurd hy hyne
        · left
          have hT : w*w - x*x + y*y - z*z - (w*w - x*x - y*y + z*z
              + (w*w + x*x - y*y - z*z)) + 1 = (2*y)^2 := by linear_combination -h
          rw [hT, Real.sqrt_sq (by linarith : (0:ℝ) ≤ 2*y)]
          simp only [Prod.mk.injEq]
          refine ⟨?_, ?_, ?_, ?_⟩
          · field_simp
            ring
          · field_simp
            ring
          · field_simp
            ring
          · field_simp
            ring
    · by_cases h2 : 0 < w*w - x*x - y*y + z*z - (w*w + x*x - y*y - z*z)
      · -- z-dominant branch reached with m11 not above m00
        rw [from_rotation_matrix_zcase_b (quaternion_to_rotation_matrix x y z w)
          (by simp only [quaternion_to_rotation_matrix]; exact h0)
          (by simp only [quaternion_to_rotation_matrix]; exact h1)
          (by simp only [quaternion_to_rotation_matrix]; exact h2)]
        simp only [quaternion_to_rotation_matrix, mul_one]
        have hz2 : 1/4 < z*z := by nlinarith [h, h0, h1, h2]
        have hzne : z ≠ 0 := by
          intro hx0
          rw [hx0] at hz2
          norm_num at hz2
        rcases lt_trichotomy z 0 with hz | hz | hz
        · right
          have hT : w*w - x*x - y*y + z*z - (w*w + x*x - y*y - z*z
              + (w*w - x*x + y*y - z*z)) + 1 = (2*(-z))^2 := by linear_combination -h
          rw [hT, Real.sqrt_sq (by linarith : (0:ℝ) ≤ 2*(-z))]
          simp only [Prod.mk.injEq]
          refine ⟨?_, ?_, ?_, ?_⟩
          · field_simp
            ring
          · field_simp
            ring
          · field_simp
            ring
          · field_simp
            ring
        · exact absurd hz hzne
        · left
          have hT : w*w - x*x - y*y + z*z - (w*w + x*x - y*y - z*z
              + (w*w - x*x + y*y - z*z)) + 1 = (2*z)^2 := by linear_combination -h
          rw [hT, Real.sqrt_sq (by linarith : (0:ℝ) ≤ 2*z)]
          simp only [Prod.mk.injEq]
          refine ⟨?_, ?_, ?_, ?_⟩
          · field_simp
            ring
          · field_simp
            ring
          · field_simp
            ring
          · field_simp
            ring
      · -- x-dominant branch
        rw [from_rotation_matrix_xcase (quaternion_to_rotation_matrix x y z w)
          (by simp only [quaternion_to_rotation_matrix]; exact h0)
          (by simp only [quaternion_to_rotation_matrix]; exact h1)
          (by simp only [quaternion_to_rotation_matrix]; exact h2)]
        simp only [quaternion_to_rotation_matrix, mul_one]
        have hx2 : 1/4 ≤ x*x := by nlinarith [h, h0, h1, h2]
        have hxne : x ≠ 0 := by
          intro hx0
          rw [hx0] at hx2
          norm_num at hx2
        rcases lt_trichotomy x 0 with hx | hx | hx
        · right
          have hT : w*w + x*x - y*y - z*z - (w*w - x*x + y*y - z*z
              + (w*w - x*x - y*y + z*z)) + 1 = (2*(-x))^2 := by linear_combination -h
          rw [hT, Real.sqrt_sq (by linarith : (0:ℝ) ≤ 2*(-x))]
          simp only [Prod.mk.injEq]
          refine ⟨?_, ?_, ?_, ?_⟩
          · field_simp
            ring
          · field_simp
            ring
          · field_simp
            ring
          · field_simp
            ring
        · exact absurd hx hxne
        · left
          have hT : w*w + x*x - y*y - z*z - (w*w - x*x + y*y - z*z
              + (w*w - x*x - y*y + z*z)) + 1 = (2*x)^2 := by linear_combination -h
          rw [hT, Real.sqrt_sq (by linarith : (0:ℝ) ≤ 2*x)]
          simp only [Prod.mk.injEq]
          refine ⟨?_, ?_, ?_, ?_⟩
          · field_simp
            ring
          · field_simp
            ring
          · field_simp
            ring
          · field_simp
            ring

/-- Witness for `quaternion_round_trip` at the identity quaternion
(0, 0, 0, 1). -/
theorem quaternion_round_trip_witness :
    ((0:ℝ)^2 + 0^2 + 0^2 + 1^2 = 1)
    ∧ (Quaternion_from_rotation_matrix (quaternion_to_rotation_matrix 0 0 0 1)
        = ((0:ℝ), (0:ℝ), (0:ℝ), (1:ℝ))
      ∨ Quaternion_from_rotation_matrix (quaternion_to_rotation_matrix 0 0 0 1)
        = (-(0:ℝ), -(0:ℝ), -(0:ℝ), -(1:ℝ))) :=
  ⟨by norm_num, quaternion_round_trip 0 0 0 1 (by norm_num)⟩

/-! ## Quaternion normalization state (`to_axis_angle`) -/

/-- Mutable state of a `Quaternion` object: the four stored components and
the `reference_frame` metadata. -/
structure QuatS where
  x : ℝ
  y : ℝ
  z : ℝ
  w : ℝ
  reference_frame : Option String

/-- Translation of `Quaternion.norm` (`ca.norm_2` of the full 4-vector). -/
def QuatS.norm (q : QuatS) : ℝ := Real.sqrt (q.x^2 + q.y^2 + q.z^2 + q.w^2)

/-- Translation of `Quaternion.normalize`: the norm is computed once and each
stored component is divided by it in place; the reference frame is
untouched. -/
def QuatS.normalize (q : QuatS) : QuatS :=
  let n := q.norm
  ⟨q.x / n, q.y / n, q.z / n, q.w / n, q.reference_frame⟩

/-- Numeric semantics of `limit(x, lower, upper)` = `max(lower, min(upper, x))`. -/
def limitR (x lower upper : ℝ) : ℝ := max lower (min upper x)

/-- Translation of `Quaternion.to_axis_angle` as a state-passing function: the
receiver is normalized in place first, and the axis and angle are computed
from the NORMALIZED components with the `if_eq_zero` guards of the source
(`if_eq_zero(c, a, b)` = `if_else(c, b, a)` selects `a` when c = 0).  The
returned receiver state is the first component. -/
def QuatS.to_axis_angle (q0 : QuatS) : QuatS × ((ℝ × ℝ × ℝ × ℝ) × Option String) × ℝ :=
  let q := q0.normalize
  let w2 := Real.sqrt (1 - q.w^2)
  let m := if w2 = 0 then 1 else w2
  let angle := if w2 = 0 then 0 else 2 * Real.arccos (limitR q.w (-1) 1)
  let ax := if w2 = 0 then 0 else q.x / m
  let ay := if w2 = 0 then 0 else q.y / m
  let az := if w2 = 0 then 1 else q.z / m
  (q, ((ax, ay, az, 0), q.reference_frame), angle)

/-- C10: `to_axis_angle` mutates its receiver: afterwards the receiver holds
the components divided by the original norm (the effect of the in-place
`normalize`), with the reference frame unchanged. -/
theorem to_axis_angle_normalizes_receiver (q : QuatS) :
    (q.to_axis_angle).1
      = ⟨q.x / q.norm, q.y / q.norm, q.z / q.norm, q.w / q.norm, q.reference_frame⟩
    ∧ ((q.to_axis_angle).1).reference_frame = q.reference_frame := by
  constructor
  · rfl
  · rfl

end

/-! ## RotationMatrix basis-vector accessors -/

/-- A 4x4 matrix of scalar expressions backing a RotationMatrix. -/
structure Mat4SX where
  r00 : SX
  r01 : SX
  r02 : SX
  r03 : SX
  r10 : SX
  r11 : SX
  r12 : SX
  r13 : SX
  r20 : SX
  r21 : SX
  r22 : SX
  r23 : SX
  r30 : SX
  r31 : SX
  r32 : SX
  r33 : SX
deriving DecidableEq

/-- Translation of `RotationMatrix.x_vector`: `Vector3(self[:4, 3:])` — the
matrix's fourth COLUMN fed through the Vector3 constructor, which keeps
entries 0..2 and resets the homogeneous slot to 0. -/
def RotationMatrix_x_vector (r : Mat4SX) : Vec4 :=
  Vector3_init ⟨r.r03, r.r13, r.r23, r.r33⟩

/-- Translation of `RotationMatrix.y_vector` (same body as `x_vector`). -/
def RotationMatrix_y_vector (r : Mat4SX) : Vec4 :=
  Vector3_init ⟨r.r03, r.r13, r.r23, r.r33⟩

/-- Translation of `RotationMatrix.z_vector` (same body as `x_vector`). -/
def RotationMatrix_z_vector (r : Mat4SX) : Vec4 :=
  Vector3_init ⟨r.r03, r.r13, r.r23, r.r33⟩

/-- Numeric value of a 4x1 column under an assignment. -/
def Vec4.evalAt (env : String → ℚ) (v : Vec4) : ℚ × ℚ × ℚ × ℚ :=
  (v.e0.eval env, v.e1.eval env, v.e2.eval env, v.e3.eval env)

/-- C9: the three basis-vector accessors of `RotationMatrix` all return the
same Vector3, built from the fourth column with the homogeneous slot reset
to 0; on any matrix whose fourth column evaluates to (0, 0, 0, 1) this is
the zero vector. -/
theorem rotation_basis_vectors (r : Mat4SX) (env : String → ℚ)
    (h0 : r.r03.eval env = 0) (h1 : r.r13.eval env = 0) (h2 : r.r23.eval env = 0)
    (_h3 : r.r33.eval env = 1) :
    RotationMatrix_x_vector r = RotationMatrix_y_vector r
    ∧ RotationMatrix_y_vector r = RotationMatrix_z_vector r
    ∧ RotationMatrix_x_vector r = Vector3_init ⟨r.r03, r.r13, r.r23, r.r33⟩
    ∧ Vec4.evalAt env (RotationMatrix_x_vector r) = (0, 0, 0, 0) := by
  refine ⟨rfl, rfl, rfl, ?_⟩
  simp only [RotationMatrix_x_vector, Vector3_init, Vec4.evalAt, h0, h1, h2]
  rfl

/-- Witness for `rotation_basis_vectors` on the identity matrix. -/
theorem rotation_basis_vectors_witness :
    (SX.eval (fun _ => 0) (SX.const 0) = 0)
    ∧ (SX.eval (fun _ => 0) (SX.const 1) = 1)
    ∧ Vec4.evalAt (fun _ => 0)
        (RotationMatrix_x_vector
          ⟨.const 1, .const 0, .const 0, .const 0,
           .const 0, .const 1, .const 0, .const 0,
           .const 0, .const 0, .const 1, .const 0,
           .const 0, .const 0, .const 0, .const 1⟩) = (0, 0, 0, 0) :=
  ⟨rfl, rfl,
    (rotation_basis_vectors
      ⟨.const 1, .const 0, .const 0, .const 0,
       .const 0, .const 1, .const 0, .const 0,
       .const 0, .const 0, .const 1, .const 0,
       .const 0, .const 0, .const 0, .const 1⟩
      (fun _ => 0) rfl rfl rfl rfl).2.2.2⟩
